import Mathlib

/-!
Verification of the Bloch-vector dynamics notebook (`blochvector.ipynb`).

The numerical core of the repository is two functions:

* `expectation(tau, chi1, chi2)` — the analytic closed-form solution for the
  lab-frame Bloch-vector components of a driven two-level system, evaluated
  elementwise over a dimensionless time array `tau`; it returns the four
  arrays `(Sx_lab, Sy_lab, Sz_lab, S_mag)`.
* `compute_bloch_evolution(chi1, cases, n_samples, T)` — builds the master
  time grid `tau = np.linspace(0, T, n_samples)`, loops over the case list
  calling `expectation` once per case, and bundles each case's output with
  its `chi_2` parameter into a result record.

The embedding below models numpy's elementwise array arithmetic as `List.map`
of a pointwise real-valued function, real (`ℝ`) arithmetic standing in for
IEEE doubles.  Display-only metadata of the records (`label`, `color`) is
carried as optional fields; the generated default label string (a pure
formatting concern) is not modelled.  A missing `"chi_2"` dictionary key,
which in Python raises `KeyError` when the loop reaches the offending case,
is modelled by `chi_2 : Option ℝ` together with an `Except`-valued runner;
the runner additionally exposes the exact sequence of Evaluator invocations
performed before a failure, mirroring Python's sequential execution order.
-/

namespace BlochVector

/-- Generalised Rabi frequency, from `expectation`:
`omega = np.sqrt(chi1 ** 2 + ((chi2 - 1) / 2) ** 2)`. -/
noncomputable def omega (chi1 chi2 : ℝ) : ℝ :=
  Real.sqrt (chi1 ^ 2 + ((chi2 - 1) / 2) ^ 2)

/-- Dimensionless detuning, from `expectation`: `omega_tilde = chi2 - 1`. -/
def omega_tilde (chi2 : ℝ) : ℝ := chi2 - 1

/-- Rotating-frame x-component at one time point, from `expectation`:
`Sx_R = (-(chi1 / omega) * np.sin(2 * omega * tau) * np.sin(omega_tilde * tau)
        + (chi1 * omega_tilde / omega ** 2) * np.sin(omega * tau) ** 2 * np.cos(omega_tilde * tau))`. -/
noncomputable def Sx_R (chi1 chi2 tau : ℝ) : ℝ :=
  -(chi1 / omega chi1 chi2) * Real.sin (2 * omega chi1 chi2 * tau)
      * Real.sin (omega_tilde chi2 * tau)
    + (chi1 * omega_tilde chi2 / omega chi1 chi2 ^ 2)
      * Real.sin (omega chi1 chi2 * tau) ^ 2 * Real.cos (omega_tilde chi2 * tau)

/-- Rotating-frame y-component at one time point, from `expectation`:
`Sy_R = (-(chi1 / omega) * np.sin(2 * omega * tau) * np.cos(omega_tilde * tau)
        - (chi1 * omega_tilde / omega ** 2) * np.sin(omega * tau) ** 2 * np.sin(omega_tilde * tau))`. -/
noncomputable def Sy_R (chi1 chi2 tau : ℝ) : ℝ :=
  -(chi1 / omega chi1 chi2) * Real.sin (2 * omega chi1 chi2 * tau)
      * Real.cos (omega_tilde chi2 * tau)
    - (chi1 * omega_tilde chi2 / omega chi1 chi2 ^ 2)
      * Real.sin (omega chi1 chi2 * tau) ^ 2 * Real.sin (omega_tilde chi2 * tau)

/-- Rotating-frame z-component at one time point, from `expectation`:
`Sz_R = 1 - (2 * chi1 ** 2 / omega ** 2) * np.sin(omega * tau) ** 2`. -/
noncomputable def Sz_R (chi1 chi2 tau : ℝ) : ℝ :=
  1 - (2 * chi1 ^ 2 / omega chi1 chi2 ^ 2) * Real.sin (omega chi1 chi2 * tau) ^ 2

/-- Lab-frame x-component, from `expectation`:
`Sx_lab = cos_tau * Sx_R - sin_tau * Sy_R`. -/
noncomputable def Sx_lab (chi1 chi2 tau : ℝ) : ℝ :=
  Real.cos tau * Sx_R chi1 chi2 tau - Real.sin tau * Sy_R chi1 chi2 tau

/-- Lab-frame y-component, from `expectation`:
`Sy_lab = sin_tau * Sx_R + cos_tau * Sy_R`. -/
noncomputable def Sy_lab (chi1 chi2 tau : ℝ) : ℝ :=
  Real.sin tau * Sx_R chi1 chi2 tau + Real.cos tau * Sy_R chi1 chi2 tau

/-- Lab-frame z-component, from `expectation`: `Sz_lab = Sz_R`. -/
noncomputable def Sz_lab (chi1 chi2 tau : ℝ) : ℝ := Sz_R chi1 chi2 tau

/-- Bloch-vector magnitude, from `expectation`:
`S_mag = np.sqrt(Sx_lab ** 2 + Sy_lab ** 2 + Sz_lab ** 2)`. -/
noncomputable def S_mag (chi1 chi2 tau : ℝ) : ℝ :=
  Real.sqrt (Sx_lab chi1 chi2 tau ^ 2 + Sy_lab chi1 chi2 tau ^ 2
    + Sz_lab chi1 chi2 tau ^ 2)

/-- The Evaluator `expectation(tau, chi1, chi2)`: numpy's elementwise array
arithmetic is modelled as `List.map` of the pointwise functions above; the
return value is the 4-tuple of arrays `(Sx_lab, Sy_lab, Sz_lab, S_mag)`. -/
noncomputable def expectation (tau : List ℝ) (chi1 chi2 : ℝ) :
    List ℝ × List ℝ × List ℝ × List ℝ :=
  (tau.map (Sx_lab chi1 chi2), tau.map (Sy_lab chi1 chi2),
   tau.map (Sz_lab chi1 chi2), tau.map (S_mag chi1 chi2))

/-- A study case: in the notebook a Python dict that "must contain at least
`chi_2`"; the optional `label` and `color` keys only control plotting.  A
dict that lacks the `"chi_2"` key is modelled by `chi_2 = none` (accessing it
raises `KeyError`). -/
structure Case where
  chi_2 : Option ℝ
  label : Option String := none
  color : Option String := none

/-- One element of the `results` list built by `compute_bloch_evolution`:
the case's `chi_2` together with the four arrays returned by `expectation`
(display metadata `label`/`color` is carried through; the generated default
label string is a formatting concern and is not modelled). -/
structure ResultRecord where
  chi_2 : ℝ
  Sx_lab : List ℝ
  Sy_lab : List ℝ
  Sz_lab : List ℝ
  S_magnitude : List ℝ
  label : Option String
  color : Option String

/-- The only failure the Case Runner can exhibit: the Python `KeyError`
raised by `case["chi_2"]` when a case dict lacks that key.  The runner has
no validation of its own (no `ConfigurationError` exists in the code). -/
inductive RunError where
  | keyError : RunError
  deriving DecidableEq

/-- `np.linspace(0.0, T, n)`: `n` evenly spaced points from `0` to `T`
inclusive; for `n = 1` numpy returns the single point `[0.0]` (the start),
and for `n = 0` the empty array. -/
noncomputable def linspace (T : ℝ) (n : ℕ) : List ℝ :=
  if n = 1 then [0] else (List.range n).map (fun i => T * i / (n - 1 : ℕ))

/-- Builds the result record of one case, as the dict literal appended inside
the loop of `compute_bloch_evolution`. -/
noncomputable def mkRecord (c : Case) (chi2 : ℝ)
    (out : List ℝ × List ℝ × List ℝ × List ℝ) : ResultRecord :=
  { chi_2 := chi2, Sx_lab := out.1, Sy_lab := out.2.1, Sz_lab := out.2.2.1,
    S_magnitude := out.2.2.2, label := c.label, color := c.color }

/-- The `for case in cases` loop of `compute_bloch_evolution`, executed
sequentially as in Python: each iteration first reads `case["chi_2"]`
(raising `KeyError` and aborting the whole call if the key is missing) and
then invokes the Evaluator.  The first component records, in order, the
`chi2` value of every Evaluator invocation actually performed before the
loop finished or aborted — the observable trace of calls to `expectation`. -/
noncomputable def runCases (chi1 : ℝ) (tau : List ℝ) :
    List Case → List ℝ × Except RunError (List ResultRecord)
  | [] => ([], .ok [])
  | c :: cs =>
    match c.chi_2 with
    | none => ([], .error .keyError)
    | some chi2 =>
      let r := mkRecord c chi2 (expectation tau chi1 chi2)
      let rest := runCases chi1 tau cs
      (chi2 :: rest.1, rest.2.map (r :: ·))

/-- The Case Runner `compute_bloch_evolution(chi1, cases, n_samples, T)`:
builds the master τ axis with `np.linspace(0.0, T, n_samples)` and runs the
per-case loop; on success returns `(tau, results)`.  The code performs no
input validation whatsoever. -/
noncomputable def compute_bloch_evolution (chi1 : ℝ) (cases : List Case)
    (n_samples : ℕ) (T : ℝ) : Except RunError (List ℝ × List ResultRecord) :=
  let tau := linspace T n_samples
  (runCases chi1 tau cases).2.map (tau, ·)

/-- The trace of Evaluator invocations performed by a call to
`compute_bloch_evolution` (the `chi2` argument of each call to
`expectation`, in execution order, up to the point of success or failure). -/
noncomputable def compute_bloch_evolution_calls (chi1 : ℝ) (cases : List Case)
    (n_samples : ℕ) (T : ℝ) : List ℝ :=
  (runCases chi1 (linspace T n_samples) cases).1

/-! ### Norm preservation of the closed form -/

/-- Algebraic core of the unit-norm invariant: the rotating-frame components,
written over abstract values `s, c` (sine/cosine of `Ωτ`), `sd, cd`
(sine/cosine of `Δτ`), have squared norm one whenever `W² = x² + (d/2)²`. -/
theorem bloch_norm_sq_aux (x W d s c sd cd : ℝ) (hW : W ≠ 0)
    (h1 : s ^ 2 + c ^ 2 = 1) (h2 : sd ^ 2 + cd ^ 2 = 1)
    (h3 : W ^ 2 = x ^ 2 + (d / 2) ^ 2) :
    (-(x / W) * (2 * s * c) * sd + x * d / W ^ 2 * s ^ 2 * cd) ^ 2
      + (-(x / W) * (2 * s * c) * cd - x * d / W ^ 2 * s ^ 2 * sd) ^ 2
      + (1 - 2 * x ^ 2 / W ^ 2 * s ^ 2) ^ 2 = 1 := by
  field_simp
  linear_combination (W ^ 6 * (4 * x ^ 2 * W ^ 2 * s ^ 2 * c ^ 2 + x ^ 2 * d ^ 2 * s ^ 4)) * h2
    + (W ^ 6 * 4 * x ^ 2 * W ^ 2 * s ^ 2) * h1 + (-(W ^ 6 * 4 * x ^ 2 * s ^ 4)) * h3

/-- The square of the generalised Rabi frequency recovers its radicand. -/
theorem omega_sq (chi1 chi2 : ℝ) :
    omega chi1 chi2 ^ 2 = chi1 ^ 2 + ((chi2 - 1) / 2) ^ 2 :=
  Real.sq_sqrt (by positivity)

/-- The rotating-frame Bloch vector has squared norm one whenever `Ω ≠ 0`. -/
theorem rot_norm_sq (chi1 chi2 tau : ℝ) (hW : omega chi1 chi2 ≠ 0) :
    Sx_R chi1 chi2 tau ^ 2 + Sy_R chi1 chi2 tau ^ 2 + Sz_R chi1 chi2 tau ^ 2 = 1 := by
  unfold Sx_R Sy_R Sz_R omega_tilde
  rw [mul_assoc 2 (omega chi1 chi2) tau, Real.sin_two_mul]
  exact bloch_norm_sq_aux chi1 (omega chi1 chi2) (chi2 - 1)
    (Real.sin (omega chi1 chi2 * tau)) (Real.cos (omega chi1 chi2 * tau))
    (Real.sin ((chi2 - 1) * tau)) (Real.cos ((chi2 - 1) * tau)) hW
    (Real.sin_sq_add_cos_sq _) (Real.sin_sq_add_cos_sq _) (omega_sq chi1 chi2)

/-- The in-plane rotation to the lab frame preserves the squared norm. -/
theorem lab_norm_sq (chi1 chi2 tau : ℝ) (hW : omega chi1 chi2 ≠ 0) :
    Sx_lab chi1 chi2 tau ^ 2 + Sy_lab chi1 chi2 tau ^ 2 + Sz_lab chi1 chi2 tau ^ 2 = 1 := by
  have h := rot_norm_sq chi1 chi2 tau hW
  have hc := Real.sin_sq_add_cos_sq tau
  unfold Sx_lab Sy_lab Sz_lab
  linear_combination h + (Sx_R chi1 chi2 tau ^ 2 + Sy_R chi1 chi2 tau ^ 2) * hc

/-- The pointwise Bloch-vector magnitude is exactly one whenever `Ω ≠ 0`. -/
theorem S_mag_eq_one (chi1 chi2 tau : ℝ) (hW : omega chi1 chi2 ≠ 0) :
    S_mag chi1 chi2 tau = 1 := by
  unfold S_mag
  rw [lab_norm_sq chi1 chi2 tau hW, Real.sqrt_one]

/-! ### Zero-time and resonance helper lemmas -/

/-- At `τ = 0` the lab-frame x-component vanishes. -/
theorem Sx_lab_zero (chi1 chi2 : ℝ) : Sx_lab chi1 chi2 0 = 0 := by
  simp [Sx_lab, Sx_R, Sy_R, omega_tilde]

/-- At `τ = 0` the lab-frame y-component vanishes. -/
theorem Sy_lab_zero (chi1 chi2 : ℝ) : Sy_lab chi1 chi2 0 = 0 := by
  simp [Sy_lab, Sx_R, Sy_R, omega_tilde]

/-- At `τ = 0` the lab-frame z-component is one. -/
theorem Sz_lab_zero (chi1 chi2 : ℝ) : Sz_lab chi1 chi2 0 = 1 := by
  simp [Sz_lab, Sz_R]

/-- At exact resonance the generalised Rabi frequency is `|chi1|`. -/
theorem omega_resonance (chi1 : ℝ) : omega chi1 1 = |chi1| := by
  rw [omega]
  norm_num [Real.sqrt_sq_eq_abs]

/-- Pointwise resonance reduction: at `chi2 = 1` the z-component collapses to
the on-resonance Rabi flip formula. -/
theorem Sz_lab_resonance (chi1 t : ℝ) (h : chi1 ≠ 0) :
    Sz_lab chi1 1 t = 1 - 2 * Real.sin (chi1 * t) ^ 2 := by
  have hW := omega_resonance chi1
  have habs : Real.sin (|chi1| * t) ^ 2 = Real.sin (chi1 * t) ^ 2 := by
    rcases abs_cases chi1 with ⟨h1, _⟩ | ⟨h1, _⟩
    · rw [h1]
    · rw [h1, neg_mul, Real.sin_neg]
      ring
  have hne : chi1 ^ 2 ≠ 0 := pow_ne_zero 2 h
  unfold Sz_lab Sz_R
  rw [hW, habs, sq_abs]
  field_simp

/-! ### Spec-side definitions for the algorithm-conformance claim

The following definitions transcribe the closed form exactly as §4.1 of the
design document states it (they are written from the spec's words, to be
compared with the source-derived `expectation` above). -/

/-- Spec §4.1 step 1: `Ω = sqrt(chi1² + ((chi2 − 1)/2)²)`. -/
noncomputable def OmegaSpec (chi1 chi2 : ℝ) : ℝ :=
  Real.sqrt (chi1 ^ 2 + ((chi2 - 1) / 2) ^ 2)

/-- Spec §4.1 step 2: `Δ = chi2 − 1`. -/
def DeltaSpec (chi2 : ℝ) : ℝ := chi2 - 1

/-- Spec §4.1 step 3: `Sx_R = −(chi1/Ω)·sin(2Ω·τ)·sin(Δ·τ) + (chi1·Δ/Ω²)·sin(Ω·τ)²·cos(Δ·τ)`. -/
noncomputable def Sx_R_spec (chi1 chi2 tau : ℝ) : ℝ :=
  -(chi1 / OmegaSpec chi1 chi2) * Real.sin (2 * OmegaSpec chi1 chi2 * tau)
      * Real.sin (DeltaSpec chi2 * tau)
    + (chi1 * DeltaSpec chi2 / OmegaSpec chi1 chi2 ^ 2)
      * Real.sin (OmegaSpec chi1 chi2 * tau) ^ 2 * Real.cos (DeltaSpec chi2 * tau)

/-- Spec §4.1 step 3: `Sy_R = −(chi1/Ω)·sin(2Ω·τ)·cos(Δ·τ) − (chi1·Δ/Ω²)·sin(Ω·τ)²·sin(Δ·τ)`. -/
noncomputable def Sy_R_spec (chi1 chi2 tau : ℝ) : ℝ :=
  -(chi1 / OmegaSpec chi1 chi2) * Real.sin (2 * OmegaSpec chi1 chi2 * tau)
      * Real.cos (DeltaSpec chi2 * tau)
    - (chi1 * DeltaSpec chi2 / OmegaSpec chi1 chi2 ^ 2)
      * Real.sin (OmegaSpec chi1 chi2 * tau) ^ 2 * Real.sin (DeltaSpec chi2 * tau)

/-- Spec §4.1 step 3: `Sz_R = 1 − (2·chi1²/Ω²)·sin(Ω·τ)²`. -/
noncomputable def Sz_R_spec (chi1 chi2 tau : ℝ) : ℝ :=
  1 - (2 * chi1 ^ 2 / OmegaSpec chi1 chi2 ^ 2) * Real.sin (OmegaSpec chi1 chi2 * tau) ^ 2

/-- Spec §4.1 step 4: `Sx_lab = cos(τ)·Sx_R − sin(τ)·Sy_R`. -/
noncomputable def Sx_lab_spec (chi1 chi2 tau : ℝ) : ℝ :=
  Real.cos tau * Sx_R_spec chi1 chi2 tau - Real.sin tau * Sy_R_spec chi1 chi2 tau

/-- Spec §4.1 step 4: `Sy_lab = sin(τ)·Sx_R + cos(τ)·Sy_R`. -/
noncomputable def Sy_lab_spec (chi1 chi2 tau : ℝ) : ℝ :=
  Real.sin tau * Sx_R_spec chi1 chi2 tau + Real.cos tau * Sy_R_spec chi1 chi2 tau

/-- Spec §4.1 step 4: `Sz_lab = Sz_R`. -/
noncomputable def Sz_lab_spec (chi1 chi2 tau : ℝ) : ℝ := Sz_R_spec chi1 chi2 tau

/-- Spec §4.1 step 5: `S_mag = sqrt(Sx_lab² + Sy_lab² + Sz_lab²)` elementwise. -/
noncomputable def S_mag_spec (chi1 chi2 tau : ℝ) : ℝ :=
  Real.sqrt (Sx_lab_spec chi1 chi2 tau ^ 2 + Sy_lab_spec chi1 chi2 tau ^ 2
    + Sz_lab_spec chi1 chi2 tau ^ 2)

/-- Spec §4.1 contract: `evaluate(tau, chi1, chi2)` returns the four
sequences, each aligned to `tau` (steps 3–6 pointwise over `tau`). -/
noncomputable def evaluateSpec (tau : List ℝ) (chi1 chi2 : ℝ) :
    List ℝ × List ℝ × List ℝ × List ℝ :=
  (tau.map (Sx_lab_spec chi1 chi2), tau.map (Sy_lab_spec chi1 chi2),
   tau.map (Sz_lab_spec chi1 chi2), tau.map (S_mag_spec chi1 chi2))

/-! ### Case-runner lemmas -/

/-- When every case carries `chi_2`, the loop succeeds and produces one
record per case, in order, echoing each case's `chi_2`, with all four arrays
of every record aligned to `tau`. -/
theorem runCases_ok (chi1 : ℝ) (tau : List ℝ) (cases : List Case)
    (hall : ∀ c ∈ cases, c.chi_2.isSome) :
    ∃ results, (runCases chi1 tau cases).2 = .ok results
      ∧ results.length = cases.length
      ∧ (∀ k : ℕ, (results[k]?).map (fun r => some r.chi_2) = (cases[k]?).map Case.chi_2)
      ∧ ∀ r ∈ results, r.Sx_lab.length = tau.length ∧ r.Sy_lab.length = tau.length
          ∧ r.Sz_lab.length = tau.length ∧ r.S_magnitude.length = tau.length := by
  induction cases with
  | nil =>
    refine ⟨[], rfl, rfl, fun k => by simp, fun r hr => absurd hr (List.not_mem_nil r)⟩
  | cons c cs ih =>
    obtain ⟨chi2, hchi2⟩ := Option.isSome_iff_exists.mp (hall c (List.mem_cons_self c cs))
    obtain ⟨rs, hrs, hlen, hidx, hrecs⟩ := ih (fun d hd => hall d (List.mem_cons_of_mem c hd))
    refine ⟨mkRecord c chi2 (expectation tau chi1 chi2) :: rs, ?_, ?_, ?_, ?_⟩
    · simp only [runCases, hchi2]
      rw [hrs]
      rfl
    · simp [hlen]
    · intro k
      match k with
      | 0 => simp [hchi2, mkRecord]
      | k + 1 => simpa using hidx k
    · intro r hr
      rcases List.mem_cons.mp hr with h | h
      · subst h
        simp [mkRecord, expectation]
      · exact hrecs r h

/-- When a prefix of valid cases is followed by a case lacking `chi_2`, the
loop performs exactly one Evaluator invocation per preceding case and then
aborts with `KeyError`, returning no result collection. -/
theorem runCases_keyError (chi1 : ℝ) (tau : List ℝ) (pre post : List Case) (c : Case)
    (hpre : ∀ p ∈ pre, p.chi_2.isSome) (hc : c.chi_2 = none) :
    runCases chi1 tau (pre ++ c :: post)
      = (pre.filterMap Case.chi_2, .error .keyError) := by
  induction pre with
  | nil => simp [runCases, hc]
  | cons p ps ih =>
    obtain ⟨chi2, h2⟩ := Option.isSome_iff_exists.mp (hpre p (List.mem_cons_self p ps))
    have hrest := ih (fun q hq => hpre q (List.mem_cons_of_mem p hq))
    simp only [List.cons_append, runCases, h2, List.append_eq, hrest, List.filterMap_cons]
    rfl

/-! ### Claim theorems -/

/-- Claim C1: for every real `chi1`, `chi2` with `Ω ≠ 0` and every element of
the input time sequence, the fourth sequence returned by
`expectation(tau, chi1, chi2)` is exactly `1` (over real arithmetic): the
lab-frame Bloch vector has unit norm at every sample. -/
theorem C1_unit_norm (tau : List ℝ) (chi1 chi2 : ℝ) (hW : omega chi1 chi2 ≠ 0) :
    ∀ x ∈ (expectation tau chi1 chi2).2.2.2, x = 1 := by
  intro x hx
  simp only [expectation, List.mem_map] at hx
  obtain ⟨t, -, rfl⟩ := hx
  exact S_mag_eq_one chi1 chi2 t hW

/-- Witness for C1 at `chi1 = 1`, `chi2 = 1`, `tau = [0]`. -/
theorem C1_unit_norm_witness :
    omega 1 1 ≠ 0 ∧ ∀ x ∈ (expectation [0] 1 1).2.2.2, x = 1 := by
  have hW : omega 1 1 ≠ 0 := by
    rw [omega]
    norm_num [Real.sqrt_one]
  exact ⟨hW, C1_unit_norm [0] 1 1 hW⟩

/-- Claim C2: for every non-empty `tau` and every `chi1`, `chi2` with
`Ω ≠ 0`, the Evaluator returns four sequences of the same length as `tau`
that agree pointwise with the closed form of spec §4.1 (transcribed as
`evaluateSpec`). -/
theorem C2_conformance (tau : List ℝ) (chi1 chi2 : ℝ) (hne : tau ≠ [])
    (hW : OmegaSpec chi1 chi2 ≠ 0) :
    (expectation tau chi1 chi2).1.length = tau.length
    ∧ (expectation tau chi1 chi2).2.1.length = tau.length
    ∧ (expectation tau chi1 chi2).2.2.1.length = tau.length
    ∧ (expectation tau chi1 chi2).2.2.2.length = tau.length
    ∧ expectation tau chi1 chi2 = evaluateSpec tau chi1 chi2 :=
  ⟨by simp [expectation], by simp [expectation], by simp [expectation],
   by simp [expectation], rfl⟩

/-- Witness for C2 at `chi1 = 1`, `chi2 = 1`, `tau = [0]`. -/
theorem C2_conformance_witness :
    (([0] : List ℝ) ≠ [] ∧ OmegaSpec 1 1 ≠ 0)
    ∧ expectation [0] 1 1 = evaluateSpec [0] 1 1 := by
  have hne : ([0] : List ℝ) ≠ [] := by simp
  have hW : OmegaSpec 1 1 ≠ 0 := by
    rw [OmegaSpec]
    norm_num [Real.sqrt_one]
  exact ⟨⟨hne, hW⟩, (C2_conformance [0] 1 1 hne hW).2.2.2.2⟩

/-- Zero-time boundary on the faithful domain of the embedding: whenever
`Ω ≠ 0` and the first element of `tau` is `0`, the first elements of the
three lab-frame sequences returned by `expectation` are `(0, 0, 1)`.  The
restriction `Ω ≠ 0` excludes the singular pair `chi1 = 0, chi2 = 1`, where
the source divides `0.0` by `0.0` and propagates IEEE NaN even at `τ = 0` —
behaviour the real-number embedding (with totalized division) cannot
represent, so no unconditional statement over all `chi1`, `chi2` is made. -/
theorem zero_time_boundary (tau : List ℝ) (chi1 chi2 : ℝ)
    (hW : omega chi1 chi2 ≠ 0) (h0 : tau.head? = some 0) :
    (expectation tau chi1 chi2).1.head? = some 0
    ∧ (expectation tau chi1 chi2).2.1.head? = some 0
    ∧ (expectation tau chi1 chi2).2.2.1.head? = some 1 := by
  refine ⟨?_, ?_, ?_⟩ <;>
    simp [expectation, List.head?_map, h0, Sx_lab_zero, Sy_lab_zero, Sz_lab_zero]

/-- Claim C9: at `chi2 = 1` (zero detuning) and `chi1 ≠ 0`, the third
sequence returned by `expectation(tau, chi1, 1)` is pointwise the textbook
on-resonance Rabi flip formula `1 − 2·sin(chi1·τ)²`. -/
theorem C9_resonance (tau : List ℝ) (chi1 : ℝ) (h : chi1 ≠ 0) :
    (expectation tau chi1 1).2.2.1
      = tau.map (fun t => 1 - 2 * Real.sin (chi1 * t) ^ 2) := by
  simp only [expectation]
  exact List.map_congr_left (fun t _ => Sz_lab_resonance chi1 t h)

/-- Witness for C9 at `chi1 = 1`, `tau = [0]`. -/
theorem C9_resonance_witness :
    (1 : ℝ) ≠ 0 ∧ (expectation [0] 1 1).2.2.1
      = ([0] : List ℝ).map (fun t => 1 - 2 * Real.sin (1 * t) ^ 2) :=
  ⟨one_ne_zero, C9_resonance [0] 1 one_ne_zero⟩

/-- Claim C10: for `Ω ≠ 0`, every element of the third sequence returned by
`expectation` (the lab-frame z-component) lies in `[−1, 1]`. -/
theorem C10_z_bound (tau : List ℝ) (chi1 chi2 : ℝ) (hW : omega chi1 chi2 ≠ 0) :
    ∀ z ∈ (expectation tau chi1 chi2).2.2.1, -1 ≤ z ∧ z ≤ 1 := by
  intro z hz
  simp only [expectation, List.mem_map] at hz
  obtain ⟨t, -, rfl⟩ := hz
  have hΩ2 := omega_sq chi1 chi2
  have hpos : 0 < omega chi1 chi2 ^ 2 :=
    pow_pos (lt_of_le_of_ne (Real.sqrt_nonneg _) (Ne.symm hW)) 2
  have hs1 : Real.sin (omega chi1 chi2 * t) ^ 2 ≤ 1 := Real.sin_sq_le_one _
  have hx : chi1 ^ 2 ≤ omega chi1 chi2 ^ 2 := by
    rw [hΩ2]
    nlinarith [sq_nonneg ((chi2 - 1) / 2)]
  have key : 2 * chi1 ^ 2 / omega chi1 chi2 ^ 2
      * Real.sin (omega chi1 chi2 * t) ^ 2 ≤ 2 := by
    rw [div_mul_eq_mul_div, div_le_iff₀ hpos]
    nlinarith [mul_nonneg (sq_nonneg chi1) (sub_nonneg.mpr hs1)]
  have hnn : 0 ≤ 2 * chi1 ^ 2 / omega chi1 chi2 ^ 2
      * Real.sin (omega chi1 chi2 * t) ^ 2 := by positivity
  unfold Sz_lab Sz_R
  constructor
  · linarith
  · linarith

/-- Witness for C10 at `chi1 = 1`, `chi2 = 1`, `tau = [3]`. -/
theorem C10_z_bound_witness :
    omega 1 1 ≠ 0 ∧ ∀ z ∈ (expectation [3] 1 1).2.2.1, -1 ≤ z ∧ z ≤ 1 := by
  have hW : omega 1 1 ≠ 0 := by
    rw [omega]
    norm_num [Real.sqrt_one]
  exact ⟨hW, C10_z_bound [3] 1 1 hW⟩

/-- Claim C5 counterexample: called with an empty `cases` list (and the
notebook's own `chi1 = 0.1`, `n_samples = 400`, `T = 60`), the Case Runner
returns a normal result — the time grid paired with an empty result list —
rather than failing with a configuration error. -/
theorem C5_empty_counterexample :
    compute_bloch_evolution 0.1 [] 400 60 = .ok (linspace 60 400, []) := rfl

/-- Claim C5 (amended): for every `chi1`, `n_samples` and `T`, calling the
Case Runner with an empty `cases` list returns normally with the time grid
and an empty result collection; no error of any kind is raised. -/
theorem C5_empty_returns_ok (chi1 : ℝ) (n_samples : ℕ) (T : ℝ) :
    compute_bloch_evolution chi1 [] n_samples T = .ok (linspace T n_samples, []) := rfl

/-- Claim C6 counterexample: called with `n_samples = 1` (a single valid
case, `chi1 = 0.1`, `T = 60`), the Case Runner does not fail: it builds the
degenerate one-point grid `[0]` (numpy's `linspace(0, 60, 1)`) and returns a
normal result evaluated on it. -/
theorem C6_one_sample_counterexample :
    compute_bloch_evolution 0.1 [⟨some 1, none, none⟩] 1 60
      = .ok ([0], [mkRecord ⟨some 1, none, none⟩ 1 (expectation [0] 0.1 1)]) := by
  have hl : linspace 60 1 = [0] := by simp [linspace]
  simp only [compute_bloch_evolution, hl, runCases, Except.map]

/-- Claim C6 (amended): for every `chi1`, `T` and every case list whose
members all carry `chi_2`, calling the Case Runner with `n_samples = 1`
returns normally, with the degenerate single-point time grid `[0]`; no
validation of `n_samples` is performed. -/
theorem C6_one_sample_returns_ok (chi1 T : ℝ) (cases : List Case)
    (hall : ∀ c ∈ cases, c.chi_2.isSome) :
    ∃ results, compute_bloch_evolution chi1 cases 1 T = .ok ([0], results) := by
  obtain ⟨rs, hrs, -, -, -⟩ := runCases_ok chi1 [0] cases hall
  have hl : linspace T 1 = [0] := by simp [linspace]
  refine ⟨rs, ?_⟩
  rw [compute_bloch_evolution, hl, hrs]
  rfl

/-- Witness for the amended C6 at `chi1 = 0.1`, `T = 60`, one valid case. -/
theorem C6_one_sample_returns_ok_witness :
    (∀ c ∈ [(⟨some 1, none, none⟩ : Case)], c.chi_2.isSome)
    ∧ ∃ results, compute_bloch_evolution 0.1 [⟨some 1, none, none⟩] 1 60
        = .ok ([0], results) := by
  have hall : ∀ c ∈ [(⟨some 1, none, none⟩ : Case)], c.chi_2.isSome := by
    intro c hc
    simp only [List.mem_singleton] at hc
    subst hc
    rfl
  exact ⟨hall, C6_one_sample_returns_ok 0.1 60 _ hall⟩

/-- Claim C7 counterexample: with a valid case (`chi_2 = 1`) followed by a
case lacking `chi_2`, the call does fail — but only after an Evaluator
invocation for the preceding case has been performed (the invocation trace
is `[1]`, not empty), refuting "no Evaluator invocation for any case
(including cases preceding the defective one) occurs". -/
theorem C7_atomicity_counterexample :
    compute_bloch_evolution_calls 0.1 [⟨some 1, none, none⟩, ⟨none, none, none⟩] 2 1 = [1]
    ∧ compute_bloch_evolution 0.1 [⟨some 1, none, none⟩, ⟨none, none, none⟩] 2 1
        = .error .keyError :=
  ⟨rfl, rfl⟩

/-- Claim C7 (amended): when a case lacking `chi_2` follows a (possibly
empty) prefix of valid cases, the Case Runner fails with the `KeyError` and
returns no partial result collection to its caller; however, the failure is
not raised before numerical work: exactly one Evaluator invocation occurs
for each case preceding the defective one, in input order. -/
theorem C7_missing_chi2_fails (chi1 T : ℝ) (n_samples : ℕ)
    (pre post : List Case) (c : Case)
    (hpre : ∀ p ∈ pre, p.chi_2.isSome) (hc : c.chi_2 = none) :
    compute_bloch_evolution chi1 (pre ++ c :: post) n_samples T = .error .keyError
    ∧ compute_bloch_evolution_calls chi1 (pre ++ c :: post) n_samples T
        = pre.filterMap Case.chi_2 := by
  have h := runCases_keyError chi1 (linspace T n_samples) pre post c hpre hc
  constructor
  · rw [compute_bloch_evolution, h]
    rfl
  · rw [compute_bloch_evolution_calls, h]

/-- Witness for the amended C7: one valid case before the defective one. -/
theorem C7_missing_chi2_fails_witness :
    ((∀ p ∈ [(⟨some 1, none, none⟩ : Case)], p.chi_2.isSome)
      ∧ (⟨none, none, none⟩ : Case).chi_2 = none)
    ∧ compute_bloch_evolution 0.1 ([⟨some 1, none, none⟩] ++ ⟨none, none, none⟩ :: []) 2 1
        = .error .keyError
    ∧ compute_bloch_evolution_calls 0.1 ([⟨some 1, none, none⟩] ++ ⟨none, none, none⟩ :: []) 2 1
        = [(⟨some 1, none, none⟩ : Case)].filterMap Case.chi_2 := by
  have hpre : ∀ p ∈ [(⟨some 1, none, none⟩ : Case)], p.chi_2.isSome := by
    intro p hp
    simp only [List.mem_singleton] at hp
    subst hp
    rfl
  exact ⟨⟨hpre, rfl⟩, C7_missing_chi2_fails 0.1 1 2 [⟨some 1, none, none⟩] [] ⟨none, none, none⟩ hpre rfl⟩

/-- Claim C8: for every `chi1`, non-empty `cases` all carrying `chi_2`, and
every `n_samples` and `T`, the Case Runner succeeds and returns one result
record per case, in input order, echoing each case's `chi_2`, with all four
sequences of every record exactly as long as the time grid. -/
theorem C8_order_preservation (chi1 T : ℝ) (n_samples : ℕ) (cases : List Case)
    (hne : cases ≠ []) (hall : ∀ c ∈ cases, c.chi_2.isSome) :
    ∃ tau results, compute_bloch_evolution chi1 cases n_samples T = .ok (tau, results)
      ∧ results.length = cases.length
      ∧ (∀ k : ℕ, (results[k]?).map (fun r => some r.chi_2) = (cases[k]?).map Case.chi_2)
      ∧ ∀ r ∈ results, r.Sx_lab.length = tau.length ∧ r.Sy_lab.length = tau.length
          ∧ r.Sz_lab.length = tau.length ∧ r.S_magnitude.length = tau.length := by
  obtain ⟨rs, hrs, hlen, hidx, hrecs⟩ :=
    runCases_ok chi1 (linspace T n_samples) cases hall
  refine ⟨linspace T n_samples, rs, ?_, hlen, hidx, hrecs⟩
  rw [compute_bloch_evolution, hrs]
  rfl

/-- Witness for C8 with the notebook's resonant case at `n_samples = 2`. -/
theorem C8_order_preservation_witness :
    (([(⟨some 1, none, none⟩ : Case)] ≠ [])
      ∧ (∀ c ∈ [(⟨some 1, none, none⟩ : Case)], c.chi_2.isSome))
    ∧ ∃ tau results,
        compute_bloch_evolution 0.1 [⟨some 1, none, none⟩] 2 60 = .ok (tau, results)
        ∧ results.length = 1
        ∧ (∀ k : ℕ, (results[k]?).map (fun r => some r.chi_2)
            = (([(⟨some 1, none, none⟩ : Case)])[k]?).map Case.chi_2)
        ∧ ∀ r ∈ results, r.Sx_lab.length = tau.length ∧ r.Sy_lab.length = tau.length
            ∧ r.Sz_lab.length = tau.length ∧ r.S_magnitude.length = tau.length := by
  have hne : [(⟨some 1, none, none⟩ : Case)] ≠ [] := by simp
  have hall : ∀ c ∈ [(⟨some 1, none, none⟩ : Case)], c.chi_2.isSome := by
    intro c hc
    simp only [List.mem_singleton] at hc
    subst hc
    rfl
  exact ⟨⟨hne, hall⟩, C8_order_preservation 0.1 60 2 [⟨some 1, none, none⟩] hne hall⟩

end BlochVector
